import Mathlib

/-!
# Search controller of `frontend/script.js`

A shallow embedding of the debounce gate, of `search()` and of the pagination
controls built by `displayPagination`, with the properties of the controller
stated over it.

Conventions of the embedding:

* time is counted in whole milliseconds (`Nat`); a timer runs exactly when it is due;
* a JavaScript number is a `JsNumber`: `NaN`, an infinity or an integer; where the host rounds
  to a double (the result of `parseInt`, the quotient inside `Math.ceil`) the model rounds with
  `toDouble`, to nearest with ties to even on the binary64 grid; `currentPage` only moves by
  one from 1 and is kept as an `Int`;
* module-level variables and the DOM nodes the script reads or writes are fields of `World`;
* `await` splits `search()` in two: `searchBegin` runs up to the call of the search service,
  `searchResume` runs from the point where the service has answered or failed.
-/

namespace TgvPrototype

/-! ## Debounce gate (`debounce`, lines 38-48) -/

/-- One entry of the host timer table: the callback `later` of one call of `executedFunction`,
which closes over the arguments of that call. -/
structure Timer (α : Type) where
  id : Nat
  due : Nat
  args : α
  deriving DecidableEq, Repr

/-- State of one debounced trigger together with the timers it owns.  `timeout` is the variable
`let timeout;` (`none` is `undefined`), `invoked` records every call of `func` with the time at
which it happened. -/
structure Debounced (α : Type) where
  wait : Nat
  timeout : Option Nat
  timers : List (Timer α)
  nextId : Nat
  invoked : List (Nat × α)
  deriving DecidableEq, Repr

/-- The closure state right after `debounce(func, wait)` returned. -/
def debounce {α : Type} (wait : Nat) : Debounced α :=
  { wait := wait, timeout := none, timers := [], nextId := 1, invoked := [] }

/-- The host function `clearTimeout(id)`: cancels the timer with that id, if there is one. -/
def clearTimeout {α : Type} (id : Option Nat) (timers : List (Timer α)) : List (Timer α) :=
  match id with
  | none => timers
  | some i => timers.filter (fun t => t.id != i)

/-- The body of `executedFunction(...args)` run at time `now`:
`clearTimeout(timeout); timeout = setTimeout(later, wait);`. -/
def executedFunction {α : Type} (now : Nat) (args : α) (d : Debounced α) : Debounced α :=
  let timers := clearTimeout d.timeout d.timers
  { d with
    timeout := some d.nextId
    timers := timers ++ [{ id := d.nextId, due := now + d.wait, args := args }]
    nextId := d.nextId + 1 }

/-- The callback `later` of timer `t`, run by the host when `t` is due:
`clearTimeout(timeout); func(...args);`. -/
def later {α : Type} (t : Timer α) (d : Debounced α) : Debounced α :=
  { d with
    timers := clearTimeout d.timeout d.timers
    invoked := d.invoked ++ [(t.due, t.args)] }

/-- The timer the host runs next at time `now`: the earliest one that is due, the oldest first
among equals. -/
def nextDue {α : Type} (now : Nat) : List (Timer α) → Option (Timer α)
  | [] => none
  | t :: rest =>
    match nextDue now rest with
    | none => if t.due ≤ now then some t else none
    | some u => if t.due ≤ now ∧ t.due ≤ u.due then some t else some u

/-- The host event loop up to time `now`: runs due timers one after the other.  Each run removes
a timer from the table and `later` creates none, so `fuel = timers.length` is enough. -/
def runTimers {α : Type} : Nat → Nat → Debounced α → Debounced α
  | 0, _, d => d
  | fuel + 1, now, d =>
    match nextDue now d.timers with
    | none => d
    | some t =>
      runTimers fuel now (later t { d with timers := d.timers.filter (fun u => u.id != t.id) })

/-- Let the clock reach `now`. -/
def advance {α : Type} (now : Nat) (d : Debounced α) : Debounced α :=
  runTimers d.timers.length now d

/-- A sequence of calls of the trigger, each with its time and arguments, in order of arrival. -/
def runCalls {α : Type} : List (Nat × α) → Debounced α → Debounced α
  | [], d => d
  | (t, args) :: rest, d => runCalls rest (executedFunction t args (advance t d))

/-- Consecutive calls are closer than `w`: each call comes no earlier than the one before it and
less than `w` after it. -/
def closerThan {α : Type} (w : Nat) : List (Nat × α) → Prop
  | [] => True
  | [_] => True
  | a :: b :: rest => (a.1 ≤ b.1 ∧ b.1 < a.1 + w) ∧ closerThan w (b :: rest)

instance {α : Type} (w : Nat) : (calls : List (Nat × α)) → Decidable (closerThan w calls)
  | [] => isTrue trivial
  | [_] => isTrue trivial
  | a :: b :: rest =>
    have : Decidable (closerThan w (b :: rest)) := instDecidableCloserThan w (b :: rest)
    inferInstanceAs (Decidable ((a.1 ≤ b.1 ∧ b.1 < a.1 + w) ∧ closerThan w (b :: rest)))

/-! ## Numbers -/

/-- A JavaScript number as far as this script holds any: `NaN`, an infinity, or a double whose
value is an integer (`-0` is not told apart from `0`). -/
inductive JsNumber where
  | nan
  | negInf
  | posInf
  | fin (n : Int)
  deriving DecidableEq, Repr

/-- The comparison `a < b` of two numbers. -/
def JsNumber.lt : JsNumber → JsNumber → Bool
  | .nan, _ => false
  | _, .nan => false
  | .fin a, .fin b => decide (a < b)
  | .posInf, _ => false
  | _, .negInf => false
  | .negInf, _ => true
  | _, .posInf => true

/-- The comparison `a <= b` of two numbers. -/
def JsNumber.le : JsNumber → JsNumber → Bool
  | .nan, _ => false
  | _, .nan => false
  | .fin a, .fin b => decide (a ≤ b)
  | .negInf, _ => true
  | _, .posInf => true
  | .posInf, _ => false
  | _, .negInf => false

/-- The integer nearest to `x`, the even one of the two when `x` lies halfway. -/
def roundHalfEven (x : ℚ) : Int :=
  let f := Int.floor x
  let r := x - f
  if r < 1 / 2 then f
  else if 1 / 2 < r then f + 1
  else if f % 2 = 0 then f else f + 1

/-- The position of the leading binary digit of `n`, found by halving (`fuel ≥ n` is enough). -/
def log2Floor : Nat → Nat → Nat
  | 0, _ => 0
  | fuel + 1, n => if n < 2 then 0 else log2Floor fuel (n / 2) + 1

/-- The binary exponent of `q ≠ 0`: the `e` with `2 ^ e ≤ |q| < 2 ^ (e + 1)`. -/
def binade (q : ℚ) : Int :=
  let e := (log2Floor q.num.natAbs q.num.natAbs : Int) - (log2Floor q.den q.den : Int)
  if (2 : ℚ) ^ e ≤ |q| then e else e - 1

/-- The double (IEEE 754 binary64) that the host takes for the exact value `q`: the nearest
multiple of the unit in the last place, `2 ^ (e - 52)` for the exponent `e` of `q` and
`2 ^ (-1074)` below `2 ^ (-1022)`, ties to even; `none` when that reaches `2 ^ 1024`, where the
host gives an infinity. -/
def toDouble (q : ℚ) : Option ℚ :=
  if q = 0 then some 0
  else
    let e := max (binade q) (-1022)
    let ulp : ℚ := 2 ^ (e - 52)
    let v := roundHalfEven (q / ulp) * ulp
    if (2 : ℚ) ^ (1024 : ℤ) ≤ |v| then none else some v

/-- The number the host takes for the integer `n`. -/
def toNumber (n : Int) : JsNumber :=
  match toDouble (n : ℚ) with
  | some v => .fin (Int.floor v)
  | none => if 0 < n then .posInf else .negInf

/-! ## Host functions used by `search()` -/

/-- The characters `parseInt` skips at the start of its argument (`StrWhiteSpaceChar` of
ECMAScript: white space and line terminators). -/
def isStrWhiteSpaceChar (c : Char) : Bool :=
  let n := c.toNat
  n == 0x9 || n == 0xA || n == 0xB || n == 0xC || n == 0xD || n == 0x20 || n == 0xA0 ||
    n == 0x1680 || (0x2000 ≤ n && n ≤ 0x200A) || n == 0x2028 || n == 0x2029 || n == 0x202F ||
    n == 0x205F || n == 0x3000 || n == 0xFEFF

/-- The value of `c` as a digit of the given radix, if it is one. -/
def radixDigit (radix : Nat) (c : Char) : Option Nat :=
  let n := c.toNat
  let v : Option Nat :=
    if 48 ≤ n ∧ n ≤ 57 then some (n - 48)
    else if 97 ≤ n ∧ n ≤ 122 then some (n - 87)
    else if 65 ≤ n ∧ n ≤ 90 then some (n - 55)
    else none
  v.filter (fun d => d < radix)

/-- The integer that `parseInt(string)`, called without a radix, reads from its argument;
`none` when it reads none.  Leading white space is skipped, a sign is read, `0x` or `0X`
selects radix 16 (otherwise 10), and the longest run of digits is the value. -/
def mathInt (string : String) : Option Int :=
  let s := string.toList.dropWhile isStrWhiteSpaceChar
  let (sign, s) : Int × List Char :=
    match s with
    | '-' :: rest => (-1, rest)
    | '+' :: rest => (1, rest)
    | _ => (1, s)
  let (radix, s) : Nat × List Char :=
    match s with
    | '0' :: 'x' :: rest => (16, rest)
    | '0' :: 'X' :: rest => (16, rest)
    | _ => (10, s)
  let z := s.takeWhile (fun c => (radixDigit radix c).isSome)
  if z = [] then none
  else some (sign * ((z.foldl (fun acc c => acc * radix + (radixDigit radix c).getD 0) 0 : Nat) : Int))

/-- The host function `parseInt(string)` called without a radix: `NaN` when no integer is
read, otherwise the number the host takes for the integer read. -/
def parseInt (string : String) : JsNumber :=
  match mathInt string with
  | none => .nan
  | some n => toNumber n

/-- The expression `x || d` for a number `x`: `NaN` and zero are falsy. -/
def orDefault (x d : JsNumber) : JsNumber :=
  if x = .nan ∨ x = .fin 0 then d else x

/-- The value of `parseInt(document.getElementById('results-per-page').value) || 10`
(line 63). -/
def resolvePerPage (value : String) : JsNumber :=
  orDefault (parseInt value) (.fin 10)

/-- The expression `Math.ceil(total / perPage)` (line 250) for an integer `total` that the host
holds: the quotient is rounded to a double before the ceiling is taken; a division by an
infinity gives 0, a division by 0 an infinity, or `NaN` for `0 / 0`. -/
def totalPagesOf (total : Int) (perPage : JsNumber) : JsNumber :=
  match perPage with
  | .nan => .nan
  | .negInf => .fin 0
  | .posInf => .fin 0
  | .fin b =>
    if b = 0 then
      if total = 0 then .nan else if 0 < total then .posInf else .negInf
    else
      match toDouble ((total : ℚ) / (b : ℚ)) with
      | some v => .fin (Int.ceil v)
      | none => if 0 < (total : ℚ) / (b : ℚ) then .posInf else .negInf

/-! ## Requests -/

/-- A property value of the request object. -/
inductive JsValue where
  | str (s : String)
  | num (x : JsNumber)
  deriving DecidableEq, Repr

/-- The request object: its own properties in insertion order. -/
abbrev SearchParameters := List (String × JsValue)

/-- The assignment `object.key = value`. -/
def setProperty (object : SearchParameters) (key : String) (value : JsValue) : SearchParameters :=
  if object.any (fun p => p.1 == key) then
    object.map (fun p => if p.1 == key then (key, value) else p)
  else object ++ [(key, value)]

/-- The object `searchParameters` as `search()` hands it to the search service (lines 71-82). -/
def buildSearchParameters (query sourceFilter : String) (perPage : JsNumber)
    (currentPage : Int) : SearchParameters :=
  let searchParameters : SearchParameters :=
    [("q", .str query),
     ("query_by", .str "ocr_text_original"),
     ("per_page", .num perPage),
     ("page", .num (.fin currentPage)),
     ("highlight_full_fields", .str "ocr_text_original"),
     ("sort_by", .str "_text_match:desc")]
  if sourceFilter.length ≠ 0 then
    setProperty searchParameters "filter_by" (.str ("source:" ++ sourceFilter))
  else searchParameters

/-! ## The page -/

/-- One hit of a result set; the fields are only rendered. -/
structure Hit where
  document : String
  highlights : List String
  deriving DecidableEq, Repr

/-- A result set of the search service. -/
structure SearchResults where
  found : Nat
  hits : List Hit
  deriving DecidableEq, Repr

/-- Content of the element `#results`: nothing, the notice "No results found", or one card for
each hit. -/
inductive ResultsDisplay where
  | empty
  | noResults
  | cards (hits : List Hit)
  deriving DecidableEq, Repr

/-- Content of the element `#pagination`: nothing, or the `nav` with the Previous and Next
buttons.  Both click handlers close over `totalPages`; the two flags are the `is-disabled`
classes given to the buttons when the control was built. -/
inductive PaginationDisplay where
  | empty
  | nav (totalPages : JsNumber) (previousDisabled nextDisabled : Bool)
  deriving DecidableEq, Repr

/-- A call of `search()` suspended at `await`: the request it sent and its local `perPage`. -/
structure InFlight where
  searchParameters : SearchParameters
  perPage : JsNumber
  deriving DecidableEq, Repr

/-- The variables and page elements the controller reads and writes.
`requests` lists every request object with which `search()` has reached the call of the search
service at line 85; the call sends it, unless `client` is still undefined, in which case the
call throws inside the `try` and the outcome is a failure.  `console` lists every
`console.error` entry.  `searchCalls` counts the calls of `search()` and `computed` lists the
values of `totalPages` computed by `displayPagination`, the most recent first; the script
itself keeps neither.  `inputTimer` says whether the timer of the debounced input handler is
pending. -/
structure World where
  searchBox : String
  sourceFilter : String
  resultsPerPage : String
  results : ResultsDisplay
  pagination : PaginationDisplay
  currentPage : Int
  requests : List SearchParameters
  inFlight : List InFlight
  console : List String
  searchCalls : Nat
  computed : List JsNumber
  inputTimer : Bool
  deriving DecidableEq, Repr

/-- The page once the script has loaded: `currentPage = 1`, nothing displayed, nothing sent. -/
def World.initial (searchBox sourceFilter resultsPerPage : String) : World :=
  { searchBox := searchBox, sourceFilter := sourceFilter, resultsPerPage := resultsPerPage,
    results := .empty, pagination := .empty, currentPage := 1, requests := [], inFlight := [],
    console := [], searchCalls := 0, computed := [], inputTimer := false }

/-- The function `displayResults(results)` (lines 129-238) as far as the content of `#results`
goes: emptied, then the notice or the cards. -/
def displayResults (w : World) (results : SearchResults) : World :=
  let w := { w with results := .empty }
  if results.hits.length = 0 then { w with results := .noResults }
  else { w with results := .cards results.hits }

/-- The part of `search()` before `await` (lines 60-85): `none` when it returns without a
request, otherwise the request taken to the call at line 85 and the local `perPage` kept for
the continuation. -/
def searchBegin (w : World) : World × Option InFlight :=
  let w := { w with searchCalls := w.searchCalls + 1 }
  let query := w.searchBox
  let sourceFilter := w.sourceFilter
  let perPage := resolvePerPage w.resultsPerPage
  if query.length = 0 then
    ({ w with results := .empty, pagination := .empty }, none)
  else
    let searchParameters := buildSearchParameters query sourceFilter perPage w.currentPage
    ({ w with requests := w.requests ++ [searchParameters] },
      some { searchParameters := searchParameters, perPage := perPage })

/-- A call of `search()` by an event handler, which does not wait for the result: the call runs
up to `await` and stays suspended there. -/
def callSearch (w : World) : World :=
  let (w, suspended) := searchBegin w
  { w with inFlight := w.inFlight ++ suspended.toList }

/-- The click handler of the Previous button (lines 262-267). -/
def previousButtonOnclick (w : World) : World :=
  if w.currentPage > 1 then callSearch { w with currentPage := w.currentPage - 1 }
  else w

/-- The click handler of the Next button of a control built for `totalPages` (lines 272-277). -/
def nextButtonOnclick (totalPages : JsNumber) (w : World) : World :=
  if JsNumber.lt (.fin w.currentPage) totalPages then
    callSearch { w with currentPage := w.currentPage + 1 }
  else w

/-- The function `displayPagination(total, perPage)` (lines 249-282). -/
def displayPagination (w : World) (total : Int) (perPage : JsNumber) : World :=
  let totalPages := totalPagesOf total perPage
  let w := { w with pagination := .empty, computed := totalPages :: w.computed }
  if JsNumber.le totalPages (.fin 1) then w
  else
    { w with
      pagination := .nav totalPages (decide (w.currentPage = 1))
        (decide (JsNumber.fin w.currentPage = totalPages)) }

/-- The part of `search()` from the point where the call at line 85 has given its result or
has failed (the service rejects, or `client` is undefined and the call throws), lines 84-90:
the `try` block with its `catch`. -/
def searchResume (w : World) (suspended : InFlight) (outcome : Except String SearchResults) :
    Except String World :=
  try
    let searchResults ← outcome
    let w := displayResults w searchResults
    pure (displayPagination w searchResults.found suspended.perPage)
  catch error =>
    pure { w with console := w.console ++ ["Search error: " ++ error] }

/-- One call of `search()` run to its end against a search service that answers `service`. -/
def search (service : SearchParameters → Except String SearchResults) (w : World) :
    Except String World :=
  match searchBegin w with
  | (w, none) => pure w
  | (w, some suspended) => searchResume w suspended (service suspended.searchParameters)

/-! ## Events -/

/-- What can happen on the page. -/
inductive Event where
  /-- The user edits the search box: the debounced handler is triggered. -/
  | input (text : String)
  /-- The timer of the debounced handler runs: `search()` is called. -/
  | inputTimerRuns
  /-- The user picks a source filter: `search()` is called. -/
  | changeFilter (value : String)
  /-- The user picks a page size: `search()` is called. -/
  | changePageSize (value : String)
  /-- The `k`-th suspended call of `search()` resumes with the answer of the service. -/
  | arrive (k : Nat) (outcome : Except String SearchResults)
  | clickPrevious
  | clickNext

/-- The effect of one event.  An event that cannot happen in the state (no timer pending, no
such suspended call, no button displayed) changes nothing. -/
def step (w : World) : Event → World
  | .input text => { w with searchBox := text, inputTimer := true }
  | .inputTimerRuns => if w.inputTimer then callSearch { w with inputTimer := false } else w
  | .changeFilter value => callSearch { w with sourceFilter := value }
  | .changePageSize value => callSearch { w with resultsPerPage := value }
  | .arrive k outcome =>
    match w.inFlight[k]? with
    | none => w
    | some suspended =>
      let w := { w with inFlight := w.inFlight.eraseIdx k }
      match searchResume w suspended outcome with
      | .ok w => w
      | .error _ => w
  | .clickPrevious =>
    match w.pagination with
    | .empty => w
    | .nav _ _ _ => previousButtonOnclick w
  | .clickNext =>
    match w.pagination with
    | .empty => w
    | .nav totalPages _ _ => nextButtonOnclick totalPages w

/-- The state after a sequence of events. -/
def run (w : World) (events : List Event) : World :=
  events.foldl step w

/-- The invariant of the pagination state as the specification words it: whenever the most
recently computed `totalPages` is greater than 0, `currentPage` lies in `[1, totalPages]`. -/
def pageInRange (w : World) : Prop :=
  ∀ totalPages, w.computed.head? = some totalPages → JsNumber.lt (.fin 0) totalPages = true →
    1 ≤ w.currentPage ∧ JsNumber.le (.fin w.currentPage) totalPages = true

/-- Event `e` in state `w` is a result-set arrival that computes a `totalPages` with
`0 < totalPages < currentPage`. -/
def shrinksBelowPage (w : World) (e : Event) : Bool :=
  match (step w e).computed with
  | [] => false
  | totalPages :: rest =>
    decide (rest = w.computed) && JsNumber.lt (.fin 0) totalPages &&
      JsNumber.lt totalPages (.fin w.currentPage)

/-- No event of the sequence, run from `w`, is a result-set arrival that computes a `totalPages`
with `0 < totalPages < currentPage`. -/
def noShrinkingArrival : World → List Event → Bool
  | _, [] => true
  | w, e :: rest => !shrinksBelowPage w e && noShrinkingArrival (step w e) rest

/-- The state of a trigger of wait `w` while exactly one call is pending: the call made at time
`t` with arguments `a`, whose timer has id `i`. -/
def pendingCall {α : Type} (w i t : Nat) (a : α) (n : Nat) : Debounced α :=
  { wait := w, timeout := some i, timers := [{ id := i, due := t + w, args := a }],
    nextId := n, invoked := [] }

/-- What the controller keeps true on every run: the page number is at least 1, and a displayed
control was built for the most recently computed `totalPages`. -/
def controlInvariant (w : World) : Prop :=
  1 ≤ w.currentPage ∧
    (∀ totalPages p n, w.pagination = .nav totalPages p n →
      w.computed.head? = some totalPages)

/-- What the controller keeps true as long as no arrival shrinks the result set below the page
shown: `controlInvariant`, and the page number is in range. -/
def pageInvariant (w : World) : Prop :=
  1 ≤ w.currentPage ∧
    (∀ totalPages p n, w.pagination = .nav totalPages p n →
      w.computed.head? = some totalPages) ∧
    pageInRange w

/-- A session in which the result set shrinks: the query "a" finds 25 documents (3 pages of 10),
the user goes to page 3, then types "ab", which finds 5 documents. -/
def shrinkingSession : List Event :=
  [.input "a", .inputTimerRuns,
   .arrive 0 (.ok { found := 25, hits := [{ document := "p1", highlights := [] }] }),
   .clickNext,
   .arrive 0 (.ok { found := 25, hits := [{ document := "p11", highlights := [] }] }),
   .clickNext,
   .arrive 0 (.ok { found := 25, hits := [{ document := "p21", highlights := [] }] }),
   .input "ab", .inputTimerRuns,
   .arrive 0 (.ok { found := 5, hits := [] })]

/-- A page showing the first of three pages of results for the query "tgv". -/
def threePages : World :=
  run (World.initial "" "" "10")
    [.input "tgv", .inputTimerRuns,
     .arrive 0 (.ok { found := 25, hits := [{ document := "p1", highlights := [] }] })]

/-- The page `threePages` moved to page 2, with a source filter set and the search box emptied. -/
def emptiedBox : World :=
  { threePages with searchBox := "", sourceFilter := "gallica", currentPage := 2 }

/-- A session in which the page size grows: the query "a" finds 45 documents (5 pages of 10),
the user goes to page 3, then picks 20 per page, which gives 3 pages. -/
def largerPagesSession : List Event :=
  [.input "a", .inputTimerRuns,
   .arrive 0 (.ok { found := 45, hits := [{ document := "p1", highlights := [] }] }),
   .clickNext,
   .arrive 0 (.ok { found := 45, hits := [{ document := "p11", highlights := [] }] }),
   .clickNext,
   .arrive 0 (.ok { found := 45, hits := [{ document := "p21", highlights := [] }] }),
   .changePageSize "20",
   .arrive 0 (.ok { found := 45, hits := [{ document := "p41", highlights := [] }] })]

/-- The session `shrinkingSession` continued: on page 3 with a single page of results the user
types "a" again, which finds 25 documents (3 pages), and then clicks Next. -/
def recoveredSession : List Event :=
  [.input "a", .inputTimerRuns,
   .arrive 0 (.ok { found := 25, hits := [{ document := "p21", highlights := [] }] }),
   .clickNext]

/-! ## Rounding to a double -/

theorem roundHalfEven_le (x : ℚ) (z : Int) (h : x ≤ z) : roundHalfEven x ≤ z := by
  have hf : Int.floor x ≤ z := by
    have := Int.floor_le_floor h
    simpa using this
  unfold roundHalfEven
  simp only
  have key : x < (Int.floor x : ℚ) + 1 := Int.lt_floor_add_one x
  by_cases hz : Int.floor x + 1 ≤ z
  · split_ifs <;> omega
  · have hfz : Int.floor x = z := by omega
    have hx : x = z := by
      have h1 : (Int.floor x : ℚ) ≤ x := Int.floor_le x
      rw [hfz] at h1
      exact le_antisymm h h1
    have hr : x - (z : ℚ) < 2⁻¹ := by rw [hx]; norm_num
    simp [hr, hfz]

theorem le_roundHalfEven (x : ℚ) (z : Int) (h : (z : ℚ) ≤ x) : z ≤ roundHalfEven x := by
  have hf : z ≤ Int.floor x := Int.le_floor.mpr h
  unfold roundHalfEven
  simp only
  split_ifs <;> omega

theorem roundHalfEven_near (x : ℚ) : x - 1 / 2 ≤ roundHalfEven x := by
  unfold roundHalfEven
  simp only
  have h1 : (Int.floor x : ℚ) ≤ x := Int.floor_le x
  have h2 : x < (Int.floor x : ℚ) + 1 := Int.lt_floor_add_one x
  split_ifs with ha hb hc
  · linarith
  · push_cast; linarith
  · linarith
  · push_cast; linarith

theorem log2Floor_spec : ∀ (fuel n : Nat), n ≤ fuel → n ≠ 0 →
    2 ^ log2Floor fuel n ≤ n ∧ n < 2 ^ (log2Floor fuel n + 1) := by
  intro fuel
  induction fuel with
  | zero => intro n h h0; omega
  | succ fuel ih =>
    intro n h h0
    unfold log2Floor
    by_cases h2 : n < 2
    · simp only [h2, if_true]
      omega
    · simp only [h2, if_false]
      obtain ⟨ha, hb⟩ := ih (n / 2) (by omega) (by omega)
      constructor
      · rw [pow_succ]; omega
      · rw [pow_succ]; omega

theorem binade_le (q : ℚ) (hq : q ≠ 0) : (2 : ℚ) ^ binade q ≤ |q| := by
  unfold binade
  simp only
  split_ifs with h
  · exact h
  · have hn : q.num.natAbs ≠ 0 := by simpa using hq
    have hd : q.den ≠ 0 := q.den_nz
    obtain ⟨ha, _⟩ := log2Floor_spec _ _ (le_refl _) hn
    obtain ⟨_, hb⟩ := log2Floor_spec _ _ (le_refl _) hd
    have habs : |q| = (q.num.natAbs : ℚ) / (q.den : ℚ) := by
      conv_lhs => rw [← Rat.num_div_den q]
      rw [abs_div, Nat.cast_natAbs, Int.cast_abs]
      simp
    rw [habs]
    have hdpos : (0 : ℚ) < q.den := by exact_mod_cast Nat.pos_of_ne_zero hd
    rw [le_div_iff₀ hdpos]
    have e1 : ((log2Floor q.num.natAbs q.num.natAbs : Int) - (log2Floor q.den q.den : Int) - 1)
        = (log2Floor q.num.natAbs q.num.natAbs : Int) - ((log2Floor q.den q.den + 1 : Nat) : Int) := by
      push_cast; ring
    rw [e1, zpow_sub₀ (by norm_num), zpow_natCast, zpow_natCast]
    have h2pos : (0 : ℚ) < 2 ^ (log2Floor q.den q.den + 1) := by positivity
    rw [div_mul_eq_mul_div, div_le_iff₀ h2pos]
    have ha' : ((2 : ℚ) ^ log2Floor q.num.natAbs q.num.natAbs) ≤ (q.num.natAbs : ℚ) := by
      exact_mod_cast ha
    have hb' : (q.den : ℚ) ≤ 2 ^ (log2Floor q.den q.den + 1) := by
      exact_mod_cast le_of_lt hb
    have hpos : (0 : ℚ) ≤ 2 ^ log2Floor q.num.natAbs q.num.natAbs := by positivity
    have hnn : (0 : ℚ) ≤ (q.num.natAbs : ℚ) := by positivity
    calc (2 : ℚ) ^ log2Floor q.num.natAbs q.num.natAbs * (q.den : ℚ)
        ≤ 2 ^ log2Floor q.num.natAbs q.num.natAbs * 2 ^ (log2Floor q.den q.den + 1) :=
          mul_le_mul_of_nonneg_left hb' hpos
      _ ≤ (q.num.natAbs : ℚ) * 2 ^ (log2Floor q.den q.den + 1) :=
          mul_le_mul_of_nonneg_right ha' (le_of_lt h2pos)

theorem binade_le_52 (q : ℚ) (hq0 : q ≠ 0) (hq : |q| < 2 ^ (53 : ℤ)) : binade q ≤ 52 := by
  have h := binade_le q hq0
  have h2 : (2 : ℚ) ^ binade q < 2 ^ (53 : ℤ) := lt_of_le_of_lt h hq
  have := (zpow_lt_zpow_iff_right₀ (by norm_num : (1 : ℚ) < 2)).mp h2
  omega

theorem int_div_ulp (e : Int) (he : e ≤ 52) (z : Int) :
    (z : ℚ) / 2 ^ (e - 52) = ((z * 2 ^ (52 - e).toNat : Int) : ℚ) := by
  have : e - 52 = -(((52 - e).toNat : Nat) : Int) := by
    rw [Int.toNat_of_nonneg (by omega)]; ring
  rw [this, zpow_neg, zpow_natCast]
  push_cast
  rw [div_inv_eq_mul]

theorem toDouble_grid (q : ℚ) (he : max (binade q) (-1022) ≤ 52) :
    (∀ z : Int, q ≤ z →
      (roundHalfEven (q / 2 ^ (max (binade q) (-1022) - 52)) : ℚ) *
        2 ^ (max (binade q) (-1022) - 52) ≤ z) ∧
    (∀ z : Int, (z : ℚ) ≤ q →
      (z : ℚ) ≤ (roundHalfEven (q / 2 ^ (max (binade q) (-1022) - 52)) : ℚ) *
        2 ^ (max (binade q) (-1022) - 52)) ∧
    q - 2 ^ (max (binade q) (-1022) - 52) / 2 ≤
      (roundHalfEven (q / 2 ^ (max (binade q) (-1022) - 52)) : ℚ) *
        2 ^ (max (binade q) (-1022) - 52) := by
  have hulp : (0 : ℚ) < 2 ^ (max (binade q) (-1022) - 52) := by positivity
  refine ⟨?_, ?_, ?_⟩
  · intro z hz
    have h1 : q / 2 ^ (max (binade q) (-1022) - 52) ≤
        ((z * 2 ^ (52 - max (binade q) (-1022)).toNat : Int) : ℚ) := by
      rw [← int_div_ulp _ he z]
      exact div_le_div_of_nonneg_right hz (le_of_lt hulp)
    have h2 := roundHalfEven_le _ _ h1
    have h3 : (roundHalfEven (q / 2 ^ (max (binade q) (-1022) - 52)) : ℚ) ≤
        (z : ℚ) / 2 ^ (max (binade q) (-1022) - 52) := by
      rw [int_div_ulp _ he z]
      exact_mod_cast h2
    rwa [le_div_iff₀ hulp] at h3
  · intro z hz
    have h1 : ((z * 2 ^ (52 - max (binade q) (-1022)).toNat : Int) : ℚ) ≤
        q / 2 ^ (max (binade q) (-1022) - 52) := by
      rw [← int_div_ulp _ he z]
      exact div_le_div_of_nonneg_right hz (le_of_lt hulp)
    have h2 := le_roundHalfEven _ _ h1
    have h3 : (z : ℚ) / 2 ^ (max (binade q) (-1022) - 52) ≤
        (roundHalfEven (q / 2 ^ (max (binade q) (-1022) - 52)) : ℚ) := by
      rw [int_div_ulp _ he z]
      exact_mod_cast h2
    rwa [div_le_iff₀ hulp] at h3
  · have h := roundHalfEven_near (q / 2 ^ (max (binade q) (-1022) - 52))
    have h' := mul_le_mul_of_nonneg_right h (le_of_lt hulp)
    have e1 : (q / 2 ^ (max (binade q) (-1022) - 52) - 1 / 2) * 2 ^ (max (binade q) (-1022) - 52)
        = q - 2 ^ (max (binade q) (-1022) - 52) / 2 := by
      field_simp
      ring
    rw [e1] at h'
    exact h'

theorem toDouble_spec (q : ℚ) (hq0 : q ≠ 0) (hq : |q| < 2 ^ (53 : ℤ)) :
    ∃ v, toDouble q = some v ∧ (∀ z : Int, q ≤ z → v ≤ z) ∧ (∀ z : Int, (z : ℚ) ≤ q → (z : ℚ) ≤ v) ∧
      q - 2 ^ (max (binade q) (-1022) - 52) / 2 ≤ v := by
  have he : max (binade q) (-1022) ≤ 52 := max_le (binade_le_52 q hq0 hq) (by norm_num)
  obtain ⟨hup, hlo, hnear⟩ := toDouble_grid q he
  have hb1 : q ≤ ((2 ^ 53 : Int) : ℚ) := by
    have := le_abs_self q
    push_cast
    have h53 : (2 : ℚ) ^ (53 : ℤ) = 2 ^ 53 := by norm_num
    linarith
  have hb2 : ((-(2 ^ 53) : Int) : ℚ) ≤ q := by
    have := neg_abs_le q
    push_cast
    have h53 : (2 : ℚ) ^ (53 : ℤ) = 2 ^ 53 := by norm_num
    linarith
  have hv1 := hup _ hb1
  have hv2 := hlo _ hb2
  have hno : ¬ ((2 : ℚ) ^ (1024 : ℤ) ≤
      |(roundHalfEven (q / 2 ^ (max (binade q) (-1022) - 52)) : ℚ) *
        2 ^ (max (binade q) (-1022) - 52)|) := by
    rw [not_le, abs_lt]
    push_cast at hv1 hv2
    have hbig : (2 : ℚ) ^ 53 < 2 ^ (1024 : ℤ) := by norm_num
    constructor <;> linarith
  refine ⟨_, ?_, hup, hlo, hnear⟩
  unfold toDouble
  simp only [hq0, if_false, hno]

theorem toDouble_int (n : Int) (hn : |n| < 2 ^ 53) : toDouble (n : ℚ) = some (n : ℚ) := by
  by_cases h0 : n = 0
  · subst h0; simp [toDouble]
  · have hq0 : (n : ℚ) ≠ 0 := by exact_mod_cast h0
    have hq : |(n : ℚ)| < 2 ^ (53 : ℤ) := by
      have : ((|n| : Int) : ℚ) < ((2 ^ 53 : Int) : ℚ) := by exact_mod_cast hn
      rw [Int.cast_abs] at this
      have h53 : (2 : ℚ) ^ (53 : ℤ) = ((2 ^ 53 : Int) : ℚ) := by norm_num
      rw [h53]; exact this
    obtain ⟨v, hv, hup, hlo, _⟩ := toDouble_spec _ hq0 hq
    have : v = n := le_antisymm (hup n (le_refl _)) (hlo n (le_refl _))
    rw [hv, this]

theorem ceil_toDouble_div (a b : Int) (ha : 0 < a) (ha2 : a < 2 ^ 53) (hb : 0 < b)
    (hb2 : b < 2 ^ 1024) :
    ∃ v, toDouble ((a : ℚ) / (b : ℚ)) = some v ∧ Int.ceil v = Int.ceil ((a : ℚ) / (b : ℚ)) := by
  have haq : (0 : ℚ) < a := by exact_mod_cast ha
  have hbq : (0 : ℚ) < b := by exact_mod_cast hb
  have hb1 : (1 : ℚ) ≤ b := by exact_mod_cast hb
  have hqpos : (0 : ℚ) < (a : ℚ) / b := div_pos haq hbq
  have hqle : (a : ℚ) / b ≤ a := div_le_self (le_of_lt haq) hb1
  have ha2q : (a : ℚ) < 2 ^ (53 : ℤ) := by
    have : (a : ℚ) < ((2 ^ 53 : Int) : ℚ) := by exact_mod_cast ha2
    have h53 : (2 : ℚ) ^ (53 : ℤ) = ((2 ^ 53 : Int) : ℚ) := by norm_num
    rw [h53]; exact this
  have hq : |(a : ℚ) / b| < 2 ^ (53 : ℤ) := by
    rw [abs_of_pos hqpos]; linarith
  obtain ⟨v, hv, hup, hlo, hnear⟩ := toDouble_spec _ (ne_of_gt hqpos) hq
  refine ⟨v, hv, ?_⟩
  -- the unit in the last place is below `2 / b`
  have hulp : (2 : ℚ) ^ (max (binade ((a : ℚ) / b)) (-1022) - 52) * b < 2 := by
    rcases le_total (binade ((a : ℚ) / b)) (-1022) with hc | hc
    · rw [max_eq_right hc]
      have hb2q : (b : ℚ) < 2 ^ (1024 : ℤ) := by
        have : (b : ℚ) < ((2 ^ 1024 : Int) : ℚ) := by exact_mod_cast hb2
        have h1024 : (2 : ℚ) ^ (1024 : ℤ) = ((2 ^ 1024 : Int) : ℚ) := by norm_num
        rw [h1024]; exact this
      have hpos : (0 : ℚ) < 2 ^ ((-1022 : ℤ) - 52) := by positivity
      calc (2 : ℚ) ^ ((-1022 : ℤ) - 52) * b < 2 ^ ((-1022 : ℤ) - 52) * 2 ^ (1024 : ℤ) :=
            mul_lt_mul_of_pos_left hb2q hpos
        _ = 2 ^ (-50 : ℤ) := by rw [← zpow_add₀ (by norm_num)]; norm_num
        _ < 2 := by norm_num
    · rw [max_eq_left hc]
      have h1 := binade_le _ (ne_of_gt hqpos)
      rw [abs_of_pos hqpos] at h1
      rw [zpow_sub₀ (by norm_num)]
      have h52 : (0 : ℚ) < 2 ^ (52 : ℤ) := by positivity
      rw [div_mul_eq_mul_div, div_lt_iff₀ h52]
      have h2 : (2 : ℚ) ^ binade ((a : ℚ) / b) * b ≤ a := by
        have := mul_le_mul_of_nonneg_right h1 (le_of_lt hbq)
        rwa [div_mul_cancel₀ _ (ne_of_gt hbq)] at this
      have h3 : (a : ℚ) < 2 * 2 ^ (52 : ℤ) := by
        have : (2 : ℚ) * 2 ^ (52 : ℤ) = 2 ^ (53 : ℤ) := by norm_num
        rw [this]; exact ha2q
      linarith
  rw [Int.ceil_eq_iff]
  refine ⟨?_, hup _ (Int.le_ceil _)⟩
  -- the quotient lies at least `1 / b` above the integer below its ceiling
  have hlt : ((Int.ceil ((a : ℚ) / b) - 1 : Int) : ℚ) < (a : ℚ) / b := by
    have := Int.ceil_lt_add_one ((a : ℚ) / b)
    push_cast; linarith
  have hint : (Int.ceil ((a : ℚ) / b) - 1) * b + 1 ≤ a := by
    have h1 : ((Int.ceil ((a : ℚ) / b) - 1 : Int) : ℚ) * b < a := by
      rwa [lt_div_iff₀ hbq] at hlt
    have h2 : (Int.ceil ((a : ℚ) / b) - 1) * b < a := by exact_mod_cast h1
    omega
  have hgap : ((Int.ceil ((a : ℚ) / b) : ℚ) - 1) + 1 / b ≤ (a : ℚ) / b := by
    have h1 : (((Int.ceil ((a : ℚ) / b) - 1) * b + 1 : Int) : ℚ) ≤ a := by exact_mod_cast hint
    push_cast at h1
    rw [le_div_iff₀ hbq]
    have : ((Int.ceil ((a : ℚ) / b) : ℚ) - 1 + 1 / b) * b
        = ((Int.ceil ((a : ℚ) / b) : ℚ) - 1) * b + 1 := by
      field_simp
    rw [this]; exact h1
  have hhalf : (2 : ℚ) ^ (max (binade ((a : ℚ) / b)) (-1022) - 52) / 2 < 1 / b := by
    rw [lt_div_iff₀ hbq]
    linarith
  linarith

theorem toNumber_of_small (n : Int) (hn : |n| < 2 ^ 53) : toNumber n = .fin n := by
  unfold toNumber
  rw [toDouble_int n hn]
  simp

/-- Rounding keeps an integer of magnitude at least 1 at magnitude at least 1. -/
theorem rounded_int_away_from_zero (n : Int) :
    (1 ≤ n → (1 : ℚ) ≤ (roundHalfEven ((n : ℚ) / 2 ^ (max (binade n) (-1022) - 52)) : ℚ) *
        2 ^ (max (binade n) (-1022) - 52)) ∧
    (n ≤ -1 → (roundHalfEven ((n : ℚ) / 2 ^ (max (binade n) (-1022) - 52)) : ℚ) *
        2 ^ (max (binade n) (-1022) - 52) ≤ -1) := by
  rcases le_or_lt (max (binade (n : ℚ)) (-1022)) 52 with he | he
  · obtain ⟨hup, hlo, _⟩ := toDouble_grid (n : ℚ) he
    constructor
    · intro h
      have := hlo 1 (by exact_mod_cast h)
      simpa using this
    · intro h
      have := hup (-1) (by exact_mod_cast h)
      simpa using this
  · have hb : max (binade (n : ℚ)) (-1022) = binade (n : ℚ) := by
      apply max_eq_left
      by_contra hc
      rw [max_eq_right (by omega)] at he
      omega
    rw [hb] at he ⊢
    have hulp1 : (1 : ℚ) ≤ 2 ^ (binade (n : ℚ) - 52) :=
      one_le_zpow₀ (by norm_num) (by omega)
    have hulp : (0 : ℚ) < 2 ^ (binade (n : ℚ) - 52) := by positivity
    have h52 : (1 : ℚ) ≤ 2 ^ (52 : ℤ) := by norm_num
    constructor
    · intro h
      have hn0 : (n : ℚ) ≠ 0 := by
        have : (1 : ℚ) ≤ n := by exact_mod_cast h
        linarith
      have hq := binade_le _ hn0
      rw [abs_of_pos (by exact_mod_cast (by omega : 0 < n))] at hq
      have hx : ((1 : Int) : ℚ) ≤ (n : ℚ) / 2 ^ (binade (n : ℚ) - 52) := by
        rw [le_div_iff₀ hulp, zpow_sub₀ (by norm_num)]
        have hp : (0 : ℚ) < 2 ^ binade (n : ℚ) := by positivity
        have : (2 : ℚ) ^ binade (n : ℚ) / 2 ^ (52 : ℤ) ≤ 2 ^ binade (n : ℚ) :=
          div_le_self (le_of_lt hp) h52
        push_cast
        linarith
      have hm := le_roundHalfEven _ _ hx
      have hm' : (1 : ℚ) ≤ (roundHalfEven ((n : ℚ) / 2 ^ (binade (n : ℚ) - 52)) : ℚ) := by
        exact_mod_cast hm
      calc (1 : ℚ) = 1 * 1 := by norm_num
        _ ≤ (roundHalfEven ((n : ℚ) / 2 ^ (binade (n : ℚ) - 52)) : ℚ) *
              2 ^ (binade (n : ℚ) - 52) :=
            mul_le_mul hm' hulp1 (by norm_num) (by linarith)
    · intro h
      have hn0 : (n : ℚ) ≠ 0 := by
        have : (n : ℚ) ≤ -1 := by exact_mod_cast h
        linarith
      have hq := binade_le _ hn0
      rw [abs_of_neg (by exact_mod_cast (by omega : n < 0))] at hq
      have hx : (n : ℚ) / 2 ^ (binade (n : ℚ) - 52) ≤ ((-1 : Int) : ℚ) := by
        rw [div_le_iff₀ hulp, zpow_sub₀ (by norm_num)]
        have hp : (0 : ℚ) < 2 ^ binade (n : ℚ) := by positivity
        have : (2 : ℚ) ^ binade (n : ℚ) / 2 ^ (52 : ℤ) ≤ 2 ^ binade (n : ℚ) :=
          div_le_self (le_of_lt hp) h52
        push_cast
        linarith
      have hm := roundHalfEven_le _ _ hx
      have hm' : (roundHalfEven ((n : ℚ) / 2 ^ (binade (n : ℚ) - 52)) : ℚ) ≤ -1 := by
        exact_mod_cast hm
      nlinarith

theorem toDouble_of_ne_zero (q : ℚ) (hq0 : q ≠ 0) :
    toDouble q =
      if (2 : ℚ) ^ (1024 : ℤ) ≤
          |(roundHalfEven (q / 2 ^ (max (binade q) (-1022) - 52)) : ℚ) *
            2 ^ (max (binade q) (-1022) - 52)| then none
      else some ((roundHalfEven (q / 2 ^ (max (binade q) (-1022) - 52)) : ℚ) *
            2 ^ (max (binade q) (-1022) - 52)) := by
  unfold toDouble
  simp only [hq0, if_false]

theorem toNumber_sign (n : Int) :
    (0 < n → toNumber n = .posInf ∨ ∃ m, toNumber n = .fin m ∧ 0 < m) ∧
    (n < 0 → toNumber n = .negInf ∨ ∃ m, toNumber n = .fin m ∧ m < 0) := by
  obtain ⟨hpos, hneg⟩ := rounded_int_away_from_zero n
  constructor
  · intro h
    have hn0 : (n : ℚ) ≠ 0 := by exact_mod_cast (by omega : n ≠ 0)
    have hv := hpos (by omega)
    unfold toNumber
    rw [toDouble_of_ne_zero _ hn0]
    by_cases ho : (2 : ℚ) ^ (1024 : ℤ) ≤
        |(roundHalfEven ((n : ℚ) / 2 ^ (max (binade n) (-1022) - 52)) : ℚ) *
          2 ^ (max (binade n) (-1022) - 52)|
    · left
      rw [if_pos ho]
      simp [h]
    · right
      rw [if_neg ho]
      refine ⟨_, rfl, ?_⟩
      have : (1 : Int) ≤ Int.floor ((roundHalfEven ((n : ℚ) /
          2 ^ (max (binade n) (-1022) - 52)) : ℚ) * 2 ^ (max (binade n) (-1022) - 52)) :=
        Int.le_floor.mpr (by exact_mod_cast hv)
      omega
  · intro h
    have hn0 : (n : ℚ) ≠ 0 := by exact_mod_cast (by omega : n ≠ 0)
    have hv := hneg (by omega)
    unfold toNumber
    rw [toDouble_of_ne_zero _ hn0]
    by_cases ho : (2 : ℚ) ^ (1024 : ℤ) ≤
        |(roundHalfEven ((n : ℚ) / 2 ^ (max (binade n) (-1022) - 52)) : ℚ) *
          2 ^ (max (binade n) (-1022) - 52)|
    · left
      rw [if_pos ho]
      have : ¬ (0 < n) := by omega
      simp [this]
    · right
      rw [if_neg ho]
      refine ⟨_, rfl, ?_⟩
      have h1 : ((Int.floor ((roundHalfEven ((n : ℚ) /
          2 ^ (max (binade n) (-1022) - 52)) : ℚ) * 2 ^ (max (binade n) (-1022) - 52)) : Int)
            : ℚ) ≤ -1 := le_trans (Int.floor_le _) hv
      have h2 : Int.floor ((roundHalfEven ((n : ℚ) /
          2 ^ (max (binade n) (-1022) - 52)) : ℚ) * 2 ^ (max (binade n) (-1022) - 52)) ≤ -1 := by
        exact_mod_cast h1
      omega

/-! ## Auxiliary facts -/

theorem string_length_eq_zero_iff (s : String) : s.length = 0 ↔ s = "" := by
  constructor
  · intro h
    have hd : s.data = [] := List.length_eq_zero.mp h
    exact String.ext hd
  · intro h
    subst h
    rfl

theorem searchBegin_empty (w : World) (h : w.searchBox = "") :
    searchBegin w =
      ({ w with searchCalls := w.searchCalls + 1, results := .empty, pagination := .empty },
        none) := by
  simp [searchBegin, h]

theorem searchBegin_nonempty (w : World) (h : w.searchBox ≠ "") :
    searchBegin w =
      ({ w with
          searchCalls := w.searchCalls + 1
          requests := w.requests ++ [buildSearchParameters w.searchBox w.sourceFilter
            (resolvePerPage w.resultsPerPage) w.currentPage] },
        some { searchParameters := buildSearchParameters w.searchBox w.sourceFilter
                (resolvePerPage w.resultsPerPage) w.currentPage,
               perPage := resolvePerPage w.resultsPerPage }) := by
  have h0 : ¬ (w.searchBox.length = 0) := fun hl => h ((string_length_eq_zero_iff _).mp hl)
  simp [searchBegin, h0]

theorem buildSearchParameters_eq (query sourceFilter : String) (perPage : JsNumber)
    (currentPage : Int) :
    buildSearchParameters query sourceFilter perPage currentPage =
      [("q", .str query),
       ("query_by", .str "ocr_text_original"),
       ("per_page", .num perPage),
       ("page", .num (.fin currentPage)),
       ("highlight_full_fields", .str "ocr_text_original"),
       ("sort_by", .str "_text_match:desc")] ++
      (if sourceFilter = "" then [] else [("filter_by", .str ("source:" ++ sourceFilter))]) := by
  by_cases hf : sourceFilter = ""
  · subst hf
    simp [buildSearchParameters]
  · have h0 : ¬ (sourceFilter.length = 0) := fun hl => hf ((string_length_eq_zero_iff _).mp hl)
    simp [buildSearchParameters, h0, hf, setProperty]

theorem searchResume_error (w : World) (suspended : InFlight) (error : String) :
    searchResume w suspended (.error error) =
      .ok { w with console := w.console ++ ["Search error: " ++ error] } := by
  rfl

theorem searchResume_ok (w : World) (suspended : InFlight) (r : SearchResults) :
    searchResume w suspended (.ok r) =
      .ok (displayPagination (displayResults w r) r.found suspended.perPage) := by
  rfl

theorem JsNumber.le_succ_of_lt (a : Int) (t : JsNumber) (h : JsNumber.lt (.fin a) t = true) :
    JsNumber.le (.fin (a + 1)) t = true := by
  cases t <;> simp [JsNumber.lt, JsNumber.le] at h ⊢
  omega

theorem JsNumber.le_pred_of_le (a : Int) (t : JsNumber) (h : JsNumber.le (.fin a) t = true) :
    JsNumber.le (.fin (a - 1)) t = true := by
  cases t <;> simp [JsNumber.le] at h ⊢
  omega

theorem JsNumber.le_of_not_lt (c : Int) (t : JsNumber) (h0 : JsNumber.lt (.fin 0) t = true)
    (h : JsNumber.lt t (.fin c) = false) : JsNumber.le (.fin c) t = true := by
  cases t <;> simp [JsNumber.lt, JsNumber.le] at h0 h ⊢
  omega

/-! ## Debounce gate -/

theorem advance_pendingCall_early {α : Type} (w i t : Nat) (a : α) (n now : Nat)
    (h : now < t + w) : advance now (pendingCall w i t a n) = pendingCall w i t a n := by
  have : ¬ (t + w ≤ now) := by omega
  simp [advance, pendingCall, runTimers, nextDue, this]

theorem advance_pendingCall_late {α : Type} (w i t : Nat) (a : α) (n now : Nat)
    (h : t + w ≤ now) :
    advance now (pendingCall w i t a n) =
      { wait := w, timeout := some i, timers := [], nextId := n, invoked := [(t + w, a)] } := by
  simp [advance, pendingCall, runTimers, nextDue, h, later, clearTimeout]

theorem executedFunction_pendingCall {α : Type} (w i t : Nat) (a : α) (n now : Nat) (b : α) :
    executedFunction now b (pendingCall w i t a n) = pendingCall w n now b (n + 1) := by
  simp [executedFunction, pendingCall, clearTimeout]

theorem runCalls_pendingCall {α : Type} (w : Nat) (calls : List (Nat × α)) :
    ∀ (i t : Nat) (a : α) (n : Nat), closerThan w ((t, a) :: calls) →
      ∃ j m, runCalls calls (pendingCall w i t a n) =
        pendingCall w j (((t, a) :: calls).getLast (List.cons_ne_nil _ _)).1
          (((t, a) :: calls).getLast (List.cons_ne_nil _ _)).2 m := by
  induction calls with
  | nil => intro i t a n _; exact ⟨i, n, rfl⟩
  | cons c rest ih =>
    intro i t a n h
    obtain ⟨t2, b⟩ := c
    obtain ⟨⟨_, h2⟩, h3⟩ := h
    simp only [runCalls]
    rw [advance_pendingCall_early w i t a n t2 h2, executedFunction_pendingCall]
    obtain ⟨j, m, hj⟩ := ih n t2 b (n + 1) h3
    exact ⟨j, m, by rw [hj, List.getLast_cons (List.cons_ne_nil _ _)]⟩

/-- C1: for a wait `w > 0` and a non-empty sequence of calls of the debounced trigger in which
each call arrives less than `w` after the one before it, `func` is invoked exactly once, with
the arguments of the last call, at (time of the last call + `w`): at any time `now` the record
of invocations is empty before that moment and holds exactly that one invocation from then on,
and no timer is left that could invoke `func` again. -/
theorem debounce_invokes_once_with_last_args {α : Type} (w : Nat) (_hw : 0 < w)
    (calls : List (Nat × α)) (hne : calls ≠ []) (hclose : closerThan w calls) (now : Nat) :
    (advance now (runCalls calls (debounce w))).invoked =
        (if now < (calls.getLast hne).1 + w then []
         else [((calls.getLast hne).1 + w, (calls.getLast hne).2)]) ∧
      ((calls.getLast hne).1 + w ≤ now →
        (advance now (runCalls calls (debounce w))).timers = []) := by
  match calls, hne, hclose with
  | (t, a) :: rest, _, hclose =>
    have h0 : runCalls ((t, a) :: rest) (debounce w) = runCalls rest (pendingCall w 1 t a 2) := by
      simp [runCalls, advance, debounce, runTimers, executedFunction, pendingCall, clearTimeout]
    obtain ⟨j, m, hj⟩ := runCalls_pendingCall w rest 1 t a 2 hclose
    rw [h0, hj]
    by_cases hlt : now < (((t, a) :: rest).getLast (List.cons_ne_nil _ _)).1 + w
    · rw [advance_pendingCall_early _ _ _ _ _ _ hlt]
      simp [hlt, pendingCall]
    · rw [advance_pendingCall_late _ _ _ _ _ _ (by omega)]
      simp [hlt]

/-- C1, the example of the specification: calls at t = 0, 50, 100, 300 with a window of 300
give one invocation, with the arguments of the call at 300, at t = 600; at t = 599 nothing has
been invoked yet. -/
theorem debounce_invokes_once_witness :
    (advance 600 (runCalls [(0, "t"), (50, "tg"), (100, "tgv"), (300, "tgv1")]
        (debounce 300))).invoked = [(600, "tgv1")] ∧
      (advance 599 (runCalls [(0, "t"), (50, "tg"), (100, "tgv"), (300, "tgv1")]
        (debounce 300))).invoked = [] := by
  have h := debounce_invokes_once_with_last_args 300 (by decide)
    [(0, "t"), (50, "tg"), (100, "tgv"), (300, "tgv1")] (by simp) (by decide)
  exact ⟨by simpa using (h 600).1, by simpa using (h 599).1⟩

/-! ## Pagination state -/

theorem callSearch_fields (w : World) :
    (callSearch w).currentPage = w.currentPage ∧ (callSearch w).computed = w.computed ∧
      ((callSearch w).pagination = w.pagination ∨ (callSearch w).pagination = .empty) := by
  by_cases h : w.searchBox = ""
  · simp [callSearch, searchBegin_empty w h]
  · simp [callSearch, searchBegin_nonempty w h]

theorem displayResults_fields (w : World) (r : SearchResults) :
    (displayResults w r).currentPage = w.currentPage ∧
      (displayResults w r).computed = w.computed := by
  unfold displayResults
  split <;> exact ⟨rfl, rfl⟩

theorem displayPagination_fields (w : World) (total : Int) (perPage : JsNumber) :
    (displayPagination w total perPage).currentPage = w.currentPage ∧
      (displayPagination w total perPage).computed = totalPagesOf total perPage :: w.computed ∧
      ((displayPagination w total perPage).pagination = .empty ∨
        ∃ p n, (displayPagination w total perPage).pagination =
          .nav (totalPagesOf total perPage) p n) := by
  by_cases hT : JsNumber.le (totalPagesOf total perPage) (.fin 1) = true
  · simp [displayPagination, hT]
  · simp [displayPagination, hT]

theorem pageInvariant_callSearch (w : World) (h : pageInvariant w) :
    pageInvariant (callSearch w) := by
  obtain ⟨hc, hk, hp⟩ := callSearch_fields w
  obtain ⟨h1, h2, h3⟩ := h
  refine ⟨by rw [hc]; exact h1, ?_, ?_⟩
  · intro T p n hnav
    rw [hk]
    rcases hp with hp | hp
    · exact h2 T p n (by rw [← hp]; exact hnav)
    · rw [hp] at hnav; cases hnav
  · unfold pageInRange at h3 ⊢
    rw [hc, hk]
    exact h3

theorem pageInvariant_of_fields (w v : World) (h : pageInvariant w)
    (hc : v.currentPage = w.currentPage) (hk : v.computed = w.computed)
    (hp : v.pagination = w.pagination) : pageInvariant v := by
  unfold pageInvariant pageInRange at *
  rw [hc, hk, hp]
  exact h

theorem pageInvariant_step (w : World) (e : Event) (h : pageInvariant w)
    (hs : shrinksBelowPage w e = false) : pageInvariant (step w e) := by
  cases e with
  | input text => exact pageInvariant_of_fields w _ h rfl rfl rfl
  | inputTimerRuns =>
    simp only [step]
    split
    · exact pageInvariant_callSearch _ (pageInvariant_of_fields w _ h rfl rfl rfl)
    · exact h
  | changeFilter value =>
    exact pageInvariant_callSearch _ (pageInvariant_of_fields w _ h rfl rfl rfl)
  | changePageSize value =>
    exact pageInvariant_callSearch _ (pageInvariant_of_fields w _ h rfl rfl rfl)
  | arrive k outcome =>
    unfold shrinksBelowPage at hs
    simp only [step] at hs ⊢
    cases hk : w.inFlight[k]? with
    | none => simp only [hk]; exact h
    | some suspended =>
      simp only [hk] at hs ⊢
      cases outcome with
      | error err =>
        simp only [searchResume_error]
        exact pageInvariant_of_fields w _ h rfl rfl rfl
      | ok r =>
        simp only [searchResume_ok] at hs ⊢
        obtain ⟨hc, hcomp, hpag⟩ :=
          displayPagination_fields
            (displayResults { w with inFlight := w.inFlight.eraseIdx k } r) r.found
            suspended.perPage
        obtain ⟨hrc, hrk⟩ :=
          displayResults_fields { w with inFlight := w.inFlight.eraseIdx k } r
        rw [hrk] at hcomp
        rw [hrc] at hc
        rw [hcomp] at hs
        have hcp : (displayPagination
            (displayResults { w with inFlight := w.inFlight.eraseIdx k } r) r.found
            suspended.perPage).currentPage = w.currentPage := hc
        have hcm : (displayPagination
            (displayResults { w with inFlight := w.inFlight.eraseIdx k } r) r.found
            suspended.perPage).computed = totalPagesOf r.found suspended.perPage :: w.computed :=
          hcomp
        refine ⟨by rw [hcp]; exact h.1, ?_, ?_⟩
        · intro T p n hnav
          rw [hcm]
          rcases hpag with hpag | ⟨p2, n2, hpag⟩
          · rw [hpag] at hnav; cases hnav
          · rw [hpag] at hnav
            injection hnav with hT
            rw [hT]; rfl
        · intro T hhead hpos
          rw [hcm] at hhead
          rw [hcp]
          have hT : totalPagesOf r.found suspended.perPage = T := by
            simpa using hhead
          refine ⟨h.1, ?_⟩
          rw [← hT] at hpos ⊢
          have hnot : JsNumber.lt (totalPagesOf r.found suspended.perPage)
              (.fin w.currentPage) = false := by
            simpa [hpos] using hs
          exact JsNumber.le_of_not_lt _ _ hpos hnot
  | clickPrevious =>
    simp only [step]
    cases hp : w.pagination with
    | empty => exact h
    | nav T p n =>
      simp only [previousButtonOnclick]
      split
      · rename_i hgt
        apply pageInvariant_callSearch
        obtain ⟨h1, h2, h3⟩ := h
        refine ⟨?_, h2, ?_⟩
        · show 1 ≤ w.currentPage - 1
          omega
        · intro B hB hpos
          obtain ⟨_, hle⟩ := h3 B hB hpos
          exact ⟨by show 1 ≤ w.currentPage - 1; omega,
            JsNumber.le_pred_of_le _ _ hle⟩
      · exact h
  | clickNext =>
    simp only [step]
    cases hp : w.pagination with
    | empty => exact h
    | nav T p n =>
      simp only [nextButtonOnclick]
      split
      · rename_i hlt
        apply pageInvariant_callSearch
        obtain ⟨h1, h2, h3⟩ := h
        refine ⟨?_, h2, ?_⟩
        · show 1 ≤ w.currentPage + 1
          omega
        · intro B hB hpos
          have hTB : T = B := by
            have := h2 T p n hp
            rw [hB] at this
            exact (Option.some.inj this).symm
          subst hTB
          exact ⟨by show 1 ≤ w.currentPage + 1; omega,
            JsNumber.le_succ_of_lt _ _ hlt⟩
      · exact h

theorem pageInvariant_run (events : List Event) :
    ∀ w : World, pageInvariant w → noShrinkingArrival w events = true →
      pageInvariant (run w events) := by
  induction events with
  | nil => intro w h _; exact h
  | cons e rest ih =>
    intro w h hn
    simp only [noShrinkingArrival, Bool.and_eq_true, Bool.not_eq_true'] at hn
    exact ih (step w e) (pageInvariant_step w e h hn.1) hn.2

theorem pageInvariant_initial (searchBox sourceFilter resultsPerPage : String) :
    pageInvariant (World.initial searchBox sourceFilter resultsPerPage) := by
  refine ⟨Int.le_refl 1, ?_, ?_⟩
  · intro T p n hnav; cases hnav
  · intro T hhead _; cases hhead

theorem controlInvariant_callSearch (w : World) (h : controlInvariant w) :
    controlInvariant (callSearch w) := by
  obtain ⟨hc, hk, hp⟩ := callSearch_fields w
  obtain ⟨h1, h2⟩ := h
  refine ⟨by rw [hc]; exact h1, ?_⟩
  intro T p n hnav
  rw [hk]
  rcases hp with hp | hp
  · exact h2 T p n (by rw [← hp]; exact hnav)
  · rw [hp] at hnav; cases hnav

theorem controlInvariant_step (w : World) (e : Event) (h : controlInvariant w) :
    controlInvariant (step w e) := by
  cases e with
  | input text => exact h
  | inputTimerRuns =>
    simp only [step]
    split
    · exact controlInvariant_callSearch _ h
    · exact h
  | changeFilter value => exact controlInvariant_callSearch _ h
  | changePageSize value => exact controlInvariant_callSearch _ h
  | arrive k outcome =>
    simp only [step]
    cases hk : w.inFlight[k]? with
    | none => exact h
    | some suspended =>
      cases outcome with
      | error err => simp only [searchResume_error]; exact h
      | ok r =>
        simp only [searchResume_ok]
        obtain ⟨hc, hcomp, hpag⟩ :=
          displayPagination_fields
            (displayResults { w with inFlight := w.inFlight.eraseIdx k } r) r.found
            suspended.perPage
        refine ⟨?_, ?_⟩
        · rw [hc, (displayResults_fields _ _).1]; exact h.1
        · intro T p n hnav
          rw [hcomp]
          rcases hpag with hpag | ⟨p2, n2, hpag⟩
          · rw [hpag] at hnav; cases hnav
          · rw [hpag] at hnav
            injection hnav with hT
            rw [hT]; rfl
  | clickPrevious =>
    simp only [step]
    cases hp : w.pagination with
    | empty => exact h
    | nav T p n =>
      simp only [previousButtonOnclick]
      split
      · apply controlInvariant_callSearch
        exact ⟨by show 1 ≤ w.currentPage - 1; omega, h.2⟩
      · exact h
  | clickNext =>
    simp only [step]
    cases hp : w.pagination with
    | empty => exact h
    | nav T p n =>
      simp only [nextButtonOnclick]
      split
      · apply controlInvariant_callSearch
        exact ⟨by show 1 ≤ w.currentPage + 1; have := h.1; omega, h.2⟩
      · exact h

theorem controlInvariant_run (events : List Event) :
    ∀ w : World, controlInvariant w → controlInvariant (run w events) := by
  induction events with
  | nil => intro w h; exact h
  | cons e rest ih => intro w h; exact ih (step w e) (controlInvariant_step w e h)

theorem controlInvariant_initial (searchBox sourceFilter resultsPerPage : String) :
    controlInvariant (World.initial searchBox sourceFilter resultsPerPage) :=
  ⟨Int.le_refl 1, fun T p n hnav => by cases hnav⟩

/-- C2, as the specification states it, fails: in the session `shrinkingSession` the user is on
page 3 of 3 when a new query text brings a result set of a single page; the most recently
computed `totalPages` is then 1 while `currentPage` is still 3. -/
theorem pageInRange_fails_when_results_shrink :
    ¬ pageInRange (run (World.initial "" "" "10") shrinkingSession) := by
  intro h
  have h1 := (h (.fin 1) (by decide!) (by decide)).2
  have h3 : (run (World.initial "" "" "10") shrinkingSession).currentPage = 3 := by decide!
  rw [h3] at h1
  exact absurd h1 (by decide)

/-- C2, amended: in every state reachable from `currentPage = 1` by text changes, filter
changes, page-size changes, result-set arrivals and Previous/Next clicks, `currentPage` is at
least 1; if no result-set arrival on the way computed a `totalPages` with
`0 < totalPages < currentPage`, then whenever the most recently computed `totalPages` is
greater than 0, `currentPage` lies in `[1, totalPages]`; and from any reachable state in which
that holds, it keeps holding for as long as no such arrival happens. -/
theorem currentPage_in_range_without_shrinking_arrival
    (searchBox sourceFilter resultsPerPage : String) (events : List Event) :
    1 ≤ (run (World.initial searchBox sourceFilter resultsPerPage) events).currentPage ∧
      (noShrinkingArrival (World.initial searchBox sourceFilter resultsPerPage) events = true →
        pageInRange (run (World.initial searchBox sourceFilter resultsPerPage) events)) ∧
      (∀ further : List Event,
        pageInRange (run (World.initial searchBox sourceFilter resultsPerPage) events) →
        noShrinkingArrival (run (World.initial searchBox sourceFilter resultsPerPage) events)
          further = true →
        pageInRange
          (run (run (World.initial searchBox sourceFilter resultsPerPage) events) further)) := by
  have hc := controlInvariant_run events _
    (controlInvariant_initial searchBox sourceFilter resultsPerPage)
  exact ⟨hc.1,
    fun h => (pageInvariant_run events _
      (pageInvariant_initial searchBox sourceFilter resultsPerPage) h).2.2,
    fun further hr hn => (pageInvariant_run further _ ⟨hc.1, hc.2, hr⟩ hn).2.2⟩

/-- C2, amended, on sessions: on page 3 of 5 the page size goes from 10 to 20, the new result
set gives 3 pages, not fewer than the page shown, and `currentPage = 3` lies in `[1, 3]`; and
after `shrinkingSession` the invariant holds again once a result set of 3 pages has arrived,
and a click on Next then leaves `currentPage = 3`. -/
theorem currentPage_in_range_witness :
    (noShrinkingArrival (World.initial "" "" "10") largerPagesSession = true ∧
      (run (World.initial "" "" "10") largerPagesSession).computed.head? = some (.fin 3) ∧
      (run (World.initial "" "" "10") largerPagesSession).currentPage = 3 ∧
      pageInRange (run (World.initial "" "" "10") largerPagesSession)) ∧
    (noShrinkingArrival
        (run (World.initial "" "" "10") (shrinkingSession ++ recoveredSession.take 3))
        (recoveredSession.drop 3) = true ∧
      (run (run (World.initial "" "" "10") (shrinkingSession ++ recoveredSession.take 3))
        (recoveredSession.drop 3)).currentPage = 3 ∧
      pageInRange
        (run (run (World.initial "" "" "10") (shrinkingSession ++ recoveredSession.take 3))
          (recoveredSession.drop 3))) := by
  have hA := (currentPage_in_range_without_shrinking_arrival "" "" "10" largerPagesSession).2.1
    (by decide!)
  have hB := (currentPage_in_range_without_shrinking_arrival "" "" "10"
    (shrinkingSession ++ recoveredSession.take 3)).2.2 (recoveredSession.drop 3)
  refine ⟨⟨by decide!, by decide!, by decide!, hA⟩, by decide!, by decide!, hB ?_ (by decide!)⟩
  intro T hhead hpos
  have hT : (run (World.initial "" "" "10")
      (shrinkingSession ++ recoveredSession.take 3)).computed.head? = some (.fin 3) := by
    decide!
  have hcp : (run (World.initial "" "" "10")
      (shrinkingSession ++ recoveredSession.take 3)).currentPage = 3 := by decide!
  rw [hT] at hhead
  rw [hcp, ← Option.some.inj hhead]
  exact ⟨by decide, by decide⟩

/-! ## Query submission -/

/-- C3: when the search-box text is empty, `search()` empties the results display and the
pagination display, sends no request and leaves `currentPage` unchanged, whatever the filter
value, the page-size value and `currentPage` are; nothing but the two displays changes (and
the count of calls of `search()`). -/
theorem search_empty_text_clears_displays
    (service : SearchParameters → Except String SearchResults) (w : World)
    (h : w.searchBox = "") :
    search service w =
        .ok { w with searchCalls := w.searchCalls + 1, results := .empty, pagination := .empty } ∧
      (searchBegin w).2 = none ∧
      (searchBegin w).1.results = .empty ∧
      (searchBegin w).1.pagination = .empty ∧
      (searchBegin w).1.requests = w.requests ∧
      (searchBegin w).1.currentPage = w.currentPage ∧
      (callSearch w).inFlight = w.inFlight := by
  simp [search, callSearch, searchBegin_empty w h, pure, Except.pure]

/-- C3 on a page: on page 2 of a displayed result list, with a filter set, an empty search box
makes `search()` clear both displays without a request. -/
theorem search_empty_text_witness :
    emptiedBox.searchBox = "" ∧
      (searchBegin emptiedBox).2 = none ∧
      (searchBegin emptiedBox).1.results = .empty ∧
      (searchBegin emptiedBox).1.pagination = .empty ∧
      (searchBegin emptiedBox).1.requests = emptiedBox.requests ∧
      (searchBegin emptiedBox).1.currentPage = 2 :=
  have h := search_empty_text_clears_displays (fun _ => .ok { found := 25, hits := [] })
    emptiedBox rfl
  ⟨rfl, h.2.1, h.2.2.1, h.2.2.2.1, h.2.2.2.2.1, h.2.2.2.2.2.1⟩

theorem totalPagesOf_of_small (total perPage : Int) (h0 : 0 ≤ total) (ht : total < 2 ^ 53)
    (hp : 0 < perPage) (hpp : perPage < 2 ^ 1024) :
    totalPagesOf total (.fin perPage) = .fin (Int.ceil ((total : ℚ) / (perPage : ℚ))) := by
  have hne : perPage ≠ 0 := by omega
  unfold totalPagesOf
  simp only [hne, if_false]
  rcases eq_or_lt_of_le h0 with hz | hpos
  · subst hz
    simp [toDouble]
  · obtain ⟨v, hv, hc⟩ := ceil_toDouble_div total perPage hpos ht hp hpp
    rw [hv]
    exact congrArg JsNumber.fin hc

/-- C4, as the specification states it, fails beyond `2 ^ 53`: for the total 13510798882111492
(a double) and 3 per page the quotient rounds down to the integer 4503599627370497, which is
the `totalPages` computed, although 4503599627370497 * 3 is less than the total. -/
theorem totalPages_misses_cover_beyond_two_pow_53 :
    toNumber 13510798882111492 = .fin 13510798882111492 ∧
      totalPagesOf 13510798882111492 (.fin 3) = .fin 4503599627370497 ∧
      (displayPagination (World.initial "tgv" "" "3") 13510798882111492 (.fin 3)).computed =
        [.fin 4503599627370497] ∧
      ¬ ((13510798882111492 : Int) ≤ 4503599627370497 * 3) := by
  decide!

/-- C4, amended: for a total with `0 ≤ total < 2 ^ 53` and a positive page size (below
`2 ^ 1024`, as every double is), the `totalPages` computed by `displayPagination(total, perPage)`
is the ceiling of `total / perPage`: it is not negative, it is the least integer `n` with
`n * perPage ≥ total`, it is the value recorded, and the control is built for it exactly when
it exceeds 1. -/
theorem totalPages_is_least_cover_below_two_pow_53 (w : World) (total perPage : Int)
    (h0 : 0 ≤ total) (ht : total < 2 ^ 53) (hp : 0 < perPage) (hpp : perPage < 2 ^ 1024) :
    ∃ n : Int, totalPagesOf total (.fin perPage) = .fin n ∧
      n = Int.ceil ((total : ℚ) / (perPage : ℚ)) ∧
      0 ≤ n ∧ total ≤ n * perPage ∧ (∀ m : Int, total ≤ m * perPage → n ≤ m) ∧
      (displayPagination w total (.fin perPage)).computed = .fin n :: w.computed ∧
      (displayPagination w total (.fin perPage)).pagination =
        (if n ≤ 1 then .empty
         else .nav (.fin n) (decide (w.currentPage = 1)) (decide (w.currentPage = n))) := by
  have hq : (0 : ℚ) < (perPage : ℚ) := by exact_mod_cast hp
  have hT := totalPagesOf_of_small total perPage h0 ht hp hpp
  refine ⟨_, hT, rfl, ?_, ?_, ?_, ?_, ?_⟩
  · exact Int.ceil_nonneg (div_nonneg (by exact_mod_cast h0) (le_of_lt hq))
  · have h := Int.le_ceil ((total : ℚ) / (perPage : ℚ))
    rw [div_le_iff₀ hq] at h
    exact_mod_cast h
  · intro m hm
    rw [Int.ceil_le, div_le_iff₀ hq]
    exact_mod_cast hm
  · rw [(displayPagination_fields _ _ _).2.1, hT]
  · by_cases hle : Int.ceil ((total : ℚ) / (perPage : ℚ)) ≤ 1
    · simp [displayPagination, hT, JsNumber.le, hle]
    · simp [displayPagination, hT, JsNumber.le, hle]

/-- C4, the example of the specification: 25 results at 10 per page give 3 pages, and the
control is built for 3 pages. -/
theorem totalPages_witness :
    totalPagesOf 25 (.fin 10) = .fin 3 ∧
      (displayPagination (World.initial "tgv" "" "10") 25 (.fin 10)).pagination =
        .nav (.fin 3) true false := by
  obtain ⟨n, h1, _, _, h4, h5, _, h7⟩ :=
    totalPages_is_least_cover_below_two_pow_53 (World.initial "tgv" "" "10") 25 10
      (by decide) (by norm_num) (by decide) (by norm_num)
  have h3 : n = 3 := by
    have ha := h5 3 (by decide)
    have hb : (25 : Int) ≤ n * 10 := h4
    omega
  subst h3
  exact ⟨h1, by rw [h7]; decide⟩

/-- C5: with a pagination control built for `totalPages > 1` on display, a click on Previous
while `currentPage = 1` changes nothing at all, and a click on Next while
`currentPage = totalPages` changes nothing at all: `currentPage` stays and `search()` is not
called. -/
theorem boundary_clicks_change_nothing (w : World) (totalPages : JsNumber) (p n : Bool)
    (hnav : w.pagination = .nav totalPages p n)
    (_hT : JsNumber.lt (.fin 1) totalPages = true) :
    (w.currentPage = 1 → step w .clickPrevious = w) ∧
      (JsNumber.fin w.currentPage = totalPages → step w .clickNext = w) := by
  constructor
  · intro h
    simp [step, hnav, previousButtonOnclick, h]
  · intro h
    simp [step, hnav, nextButtonOnclick, ← h, JsNumber.lt]

/-- C5 on a page: on page 1 of 3 Previous does nothing; on page 3 of 3 Next does nothing. -/
theorem boundary_clicks_witness :
    step threePages .clickPrevious = threePages ∧
      step { threePages with currentPage := 3 } .clickNext = { threePages with currentPage := 3 } :=
  ⟨(boundary_clicks_change_nothing threePages (.fin 3) true false (by decide!) (by decide)).1
      (by decide!),
    (boundary_clicks_change_nothing { threePages with currentPage := 3 } (.fin 3) true false
      (by decide!) (by decide)).2 (by decide!)⟩

/-- C6: with a pagination control built for `totalPages` on display, a click on Next while
`currentPage < totalPages` adds 1 to `currentPage` and calls `search()` exactly once, at once;
a click on Previous while `currentPage > 1` subtracts 1 and calls `search()` exactly once, at
once; when the search box is not empty, that call sends exactly one request, whose `page` is
the updated page number. -/
theorem interior_clicks_move_and_search (w : World) (totalPages : JsNumber) (p n : Bool)
    (hnav : w.pagination = .nav totalPages p n) :
    (JsNumber.lt (.fin w.currentPage) totalPages = true →
      step w .clickNext = callSearch { w with currentPage := w.currentPage + 1 } ∧
      (step w .clickNext).currentPage = w.currentPage + 1 ∧
      (step w .clickNext).searchCalls = w.searchCalls + 1 ∧
      (w.searchBox ≠ "" →
        ∃ request, (step w .clickNext).requests = w.requests ++ [request] ∧
          request.lookup "page" = some (.num (.fin (w.currentPage + 1))))) ∧
    (w.currentPage > 1 →
      step w .clickPrevious = callSearch { w with currentPage := w.currentPage - 1 } ∧
      (step w .clickPrevious).currentPage = w.currentPage - 1 ∧
      (step w .clickPrevious).searchCalls = w.searchCalls + 1 ∧
      (w.searchBox ≠ "" →
        ∃ request, (step w .clickPrevious).requests = w.requests ++ [request] ∧
          request.lookup "page" = some (.num (.fin (w.currentPage - 1))))) := by
  have key : ∀ v : World, v.searchBox = w.searchBox → v.requests = w.requests →
      v.searchCalls = w.searchCalls →
      (callSearch v).currentPage = v.currentPage ∧
      (callSearch v).searchCalls = w.searchCalls + 1 ∧
      (w.searchBox ≠ "" →
        ∃ request, (callSearch v).requests = w.requests ++ [request] ∧
          request.lookup "page" = some (.num (.fin v.currentPage))) := by
    intro v hb hr hs
    refine ⟨(callSearch_fields v).1, ?_, ?_⟩
    · by_cases hv : v.searchBox = ""
      · simp [callSearch, searchBegin_empty v hv, hs]
      · simp [callSearch, searchBegin_nonempty v hv, hs]
    · intro hne
      have hv : v.searchBox ≠ "" := by rw [hb]; exact hne
      refine ⟨buildSearchParameters v.searchBox v.sourceFilter
        (resolvePerPage v.resultsPerPage) v.currentPage, ?_, ?_⟩
      · simp [callSearch, searchBegin_nonempty v hv, hr]
      · rw [buildSearchParameters_eq]
        simp [List.lookup]
  constructor
  · intro h
    have hs : step w .clickNext = callSearch { w with currentPage := w.currentPage + 1 } := by
      simp [step, hnav, nextButtonOnclick, h]
    rw [hs]
    exact ⟨rfl, key { w with currentPage := w.currentPage + 1 } rfl rfl rfl⟩
  · intro h
    have hs : step w .clickPrevious =
        callSearch { w with currentPage := w.currentPage - 1 } := by
      simp [step, hnav, previousButtonOnclick, h]
    rw [hs]
    exact ⟨rfl, key { w with currentPage := w.currentPage - 1 } rfl rfl rfl⟩

/-- C6 on a page: Next on page 1 of 3 leads to page 2 with one more call of `search()`, and
Previous on page 2 of 3 leads back to page 1 with one more call. -/
theorem interior_clicks_witness :
    ((step threePages .clickNext).currentPage = 2 ∧
      (step threePages .clickNext).searchCalls = 2) ∧
    ((step { threePages with currentPage := 2 } .clickPrevious).currentPage = 1 ∧
      (step { threePages with currentPage := 2 } .clickPrevious).searchCalls = 2) := by
  have hN := (interior_clicks_move_and_search threePages (.fin 3) true false (by decide!)).1
    (by decide!)
  have hP := (interior_clicks_move_and_search { threePages with currentPage := 2 } (.fin 3)
    true false (by decide!)).2 (by decide!)
  exact ⟨⟨by rw [hN.2.1]; decide!, by rw [hN.2.2.1]; decide!⟩,
    ⟨by rw [hP.2.1]; decide!, by rw [hP.2.2.1]; decide!⟩⟩

/-- C7: for a non-empty query text, the request built by `search()` has a `filter_by` property
if and only if the filter value is not empty, and then its value is exactly "source:" followed
by the filter value. -/
theorem filter_by_iff_filter_set (w : World) (h : w.searchBox ≠ "") :
    ∃ suspended, (searchBegin w).2 = some suspended ∧
      (searchBegin w).1.requests = w.requests ++ [suspended.searchParameters] ∧
      suspended.searchParameters.lookup "filter_by" =
        (if w.sourceFilter = "" then none else some (.str ("source:" ++ w.sourceFilter))) ∧
      ((∃ value, ("filter_by", value) ∈ suspended.searchParameters) ↔ w.sourceFilter ≠ "") ∧
      (∀ value, ("filter_by", value) ∈ suspended.searchParameters →
        value = .str ("source:" ++ w.sourceFilter)) := by
  refine ⟨_, by rw [searchBegin_nonempty w h], by rw [searchBegin_nonempty w h], ?_, ?_, ?_⟩
  · rw [buildSearchParameters_eq]
    by_cases hf : w.sourceFilter = "" <;> simp [hf, List.lookup]
  · rw [buildSearchParameters_eq]
    by_cases hf : w.sourceFilter = "" <;> simp [hf]
  · intro value hmem
    rw [buildSearchParameters_eq] at hmem
    by_cases hf : w.sourceFilter = "" <;> simp [hf] at hmem
    exact hmem

/-- C7 on two pages: with the filter "gallica" the request carries
`filter_by = "source:gallica"`; with no filter it carries no `filter_by`. -/
theorem filter_by_witness :
    ((searchBegin (World.initial "tgv" "gallica" "10")).2.bind
        (fun s => s.searchParameters.lookup "filter_by")) = some (.str "source:gallica") ∧
      ((searchBegin (World.initial "tgv" "" "10")).2.bind
        (fun s => s.searchParameters.lookup "filter_by")) = none := by
  obtain ⟨s1, h1, _, h2, _⟩ :=
    filter_by_iff_filter_set (World.initial "tgv" "gallica" "10") (by decide)
  obtain ⟨s2, h3, _, h4, _⟩ :=
    filter_by_iff_filter_set (World.initial "tgv" "" "10") (by decide)
  constructor
  · rw [h1, Option.some_bind, h2]; decide
  · rw [h3, Option.some_bind, h4]; decide

theorem resolvePerPage_of_mathInt (value : String) :
    (mathInt value = none ∨ mathInt value = some 0 → resolvePerPage value = .fin 10) ∧
    (∀ n, mathInt value = some n → n ≠ 0 →
      resolvePerPage value = toNumber n ∧
      (JsNumber.lt (.fin 0) (toNumber n) = true ↔ 0 < n)) := by
  constructor
  · intro h
    rcases h with h | h
    · simp [resolvePerPage, parseInt, h, orDefault]
    · have h0 : toNumber 0 = .fin 0 := toNumber_of_small 0 (by norm_num)
      simp [resolvePerPage, parseInt, h, orDefault, h0]
  · intro n hn hne
    obtain ⟨hpos, hneg⟩ := toNumber_sign n
    rcases lt_or_gt_of_ne hne with hlt | hgt
    · have hng : ¬ (0 < n) := by omega
      rcases hneg hlt with hv | ⟨m, hv, hm⟩
      · simp [resolvePerPage, parseInt, hn, orDefault, hv, JsNumber.lt, hng]
      · have hm0 : m ≠ 0 := by omega
        have hm1 : ¬ (0 < m) := by omega
        simp [resolvePerPage, parseInt, hn, orDefault, hv, JsNumber.lt, hng, hm0, hm1]
    · rcases hpos hgt with hv | ⟨m, hv, hm⟩
      · simp [resolvePerPage, parseInt, hn, orDefault, hv, JsNumber.lt, hgt]
      · have hm0 : m ≠ 0 := by omega
        simp [resolvePerPage, parseInt, hn, orDefault, hv, JsNumber.lt, hgt, hm0, hm]

/-- C8, as the specification states it, fails: with the page-size value "-5" the page size that
`search()` puts in the request and keeps for `displayPagination` is -5, which is not positive;
the value "0" parses as the integer 0 but yields the default 10; the value "9007199254740993"
yields 9007199254740992, not the integer parsed; and a value of 400 digits yields `Infinity`,
which is no integer. -/
theorem perPage_not_always_positive :
    ((searchBegin (World.initial "tgv" "" "-5")).2.map (fun s => s.perPage)) = some (.fin (-5)) ∧
      ((searchBegin (World.initial "tgv" "" "-5")).2.bind
        (fun s => s.searchParameters.lookup "per_page")) = some (.num (.fin (-5))) ∧
      JsNumber.lt (.fin 0) (resolvePerPage "-5") = false ∧
      mathInt "0" = some 0 ∧ resolvePerPage "0" = .fin 10 ∧
      mathInt "9007199254740993" = some 9007199254740993 ∧
      resolvePerPage "9007199254740993" = .fin 9007199254740992 ∧
      resolvePerPage (String.mk (List.replicate 400 '9')) = .posInf := by
  decide!

/-- C8, amended: for every string value of the results-per-page control, the page size that
`search()` puts in the request and passes to `displayPagination` is a number other than `NaN`
and 0: the default 10 when the value cannot be parsed as an integer or parses to 0, otherwise
the number the host takes for the integer parsed, which is that integer when its magnitude is
below `2 ^ 53`; it is positive unless the parsed integer is negative. -/
theorem perPage_is_parsed_nonzero_or_default (w : World) (h : w.searchBox ≠ "") :
    ∃ suspended, (searchBegin w).2 = some suspended ∧
      suspended.searchParameters.lookup "per_page" =
        some (.num (resolvePerPage w.resultsPerPage)) ∧
      (∀ (v : World) (r : SearchResults), searchResume v suspended (.ok r) =
        .ok (displayPagination (displayResults v r) r.found (resolvePerPage w.resultsPerPage))) ∧
      resolvePerPage w.resultsPerPage ≠ .nan ∧
      resolvePerPage w.resultsPerPage ≠ .fin 0 ∧
      (mathInt w.resultsPerPage = none ∨ mathInt w.resultsPerPage = some 0 →
        resolvePerPage w.resultsPerPage = .fin 10) ∧
      (∀ n, mathInt w.resultsPerPage = some n → n ≠ 0 →
        resolvePerPage w.resultsPerPage = toNumber n) ∧
      (∀ n, mathInt w.resultsPerPage = some n → n ≠ 0 → |n| < 2 ^ 53 →
        resolvePerPage w.resultsPerPage = .fin n) ∧
      (JsNumber.lt (.fin 0) (resolvePerPage w.resultsPerPage) = true ↔
        ¬ ∃ n, mathInt w.resultsPerPage = some n ∧ n < 0) := by
  obtain ⟨hdef, hnum⟩ := resolvePerPage_of_mathInt w.resultsPerPage
  refine ⟨_, by rw [searchBegin_nonempty w h], ?_, ?_, ?_, ?_, hdef,
    fun n hn hne => (hnum n hn hne).1, ?_, ?_⟩
  · rw [buildSearchParameters_eq]
    simp [List.lookup]
  · intro v r
    rfl
  · unfold resolvePerPage orDefault
    split_ifs with hc
    · simp
    · exact fun hx => hc (Or.inl hx)
  · unfold resolvePerPage orDefault
    split_ifs with hc
    · simp
    · exact fun hx => hc (Or.inr hx)
  · intro n hn hne hb
    rw [(hnum n hn hne).1, toNumber_of_small n hb]
  · cases hm : mathInt w.resultsPerPage with
    | none =>
      rw [hdef (Or.inl hm)]
      simp [JsNumber.lt]
    | some n =>
      by_cases hz : n = 0
      · subst hz
        rw [hdef (Or.inr hm)]
        simp [JsNumber.lt]
      · obtain ⟨he, hs⟩ := hnum n hm hz
        rw [he, hs]
        simp only [Option.some.injEq, exists_eq_left', not_lt]
        omega

/-- C8, amended, on pages: the value "25" gives the page size 25, the unparseable value "all"
gives 10. -/
theorem perPage_witness :
    resolvePerPage "25" = .fin 25 ∧ resolvePerPage "all" = .fin 10 ∧
      ((searchBegin (World.initial "tgv" "" "25")).2.bind
        (fun s => s.searchParameters.lookup "per_page")) = some (.num (.fin 25)) := by
  obtain ⟨s, h1, h2, _, _, _, _, _, h8, _⟩ :=
    perPage_is_parsed_nonzero_or_default (World.initial "tgv" "" "25") (by decide)
  have h25 : resolvePerPage "25" = .fin 25 := h8 25 (by decide) (by decide) (by norm_num)
  refine ⟨h25, by decide!, ?_⟩
  rw [h1, Option.some_bind, h2]
  exact congrArg (fun x => some (JsValue.num x)) h25

/-- C9: for a non-empty query text, the request built by `search()` has `q` equal to the
search-box text unchanged, `query_by = 'ocr_text_original'`, `per_page` equal to the resolved
page size, `page` equal to `currentPage` at the time of the call,
`highlight_full_fields = 'ocr_text_original'` and `sort_by = '_text_match:desc'`, and no other
property except `filter_by` when a filter is set. -/
theorem request_has_exactly_these_fields (w : World) (h : w.searchBox ≠ "") :
    ∃ suspended, (searchBegin w).2 = some suspended ∧
      (searchBegin w).1.requests = w.requests ++ [suspended.searchParameters] ∧
      suspended.searchParameters =
        [("q", .str w.searchBox),
         ("query_by", .str "ocr_text_original"),
         ("per_page", .num (resolvePerPage w.resultsPerPage)),
         ("page", .num (.fin w.currentPage)),
         ("highlight_full_fields", .str "ocr_text_original"),
         ("sort_by", .str "_text_match:desc")] ++
        (if w.sourceFilter = "" then []
         else [("filter_by", .str ("source:" ++ w.sourceFilter))]) := by
  exact ⟨_, by rw [searchBegin_nonempty w h], by rw [searchBegin_nonempty w h],
    buildSearchParameters_eq _ _ _ _⟩

/-- C9 on a page: the request for the text " TGV " (kept with its spaces) on page 2 of
`threePages`. -/
theorem request_fields_witness :
    (searchBegin { threePages with searchBox := " TGV ", currentPage := 2 }).2.map
        (fun s => s.searchParameters) =
      some [("q", .str " TGV "),
            ("query_by", .str "ocr_text_original"),
            ("per_page", .num (.fin 10)),
            ("page", .num (.fin 2)),
            ("highlight_full_fields", .str "ocr_text_original"),
            ("sort_by", .str "_text_match:desc")] := by
  obtain ⟨s, h1, _, h3⟩ := request_has_exactly_these_fields
    { threePages with searchBox := " TGV ", currentPage := 2 } (by decide)
  rw [h1, Option.map_some', h3]
  decide!

/-- C10: for a non-empty query, when the request to the search service fails, `search()`
completes normally (the error does not reach its caller), has logged the error, has sent that
one request and no other, and the results display, the pagination display and `currentPage`
are exactly as before the call; the same holds when a suspended call resumes with a
failure. -/
theorem failed_request_is_only_logged
    (service : SearchParameters → Except String SearchResults) (w : World)
    (h : w.searchBox ≠ "") (error : String)
    (hfail : service (buildSearchParameters w.searchBox w.sourceFilter
      (resolvePerPage w.resultsPerPage) w.currentPage) = .error error) :
    (∃ v, search service w = .ok v ∧
      v.console = w.console ++ ["Search error: " ++ error] ∧
      v.requests = w.requests ++ [buildSearchParameters w.searchBox w.sourceFilter
        (resolvePerPage w.resultsPerPage) w.currentPage] ∧
      v.results = w.results ∧ v.pagination = w.pagination ∧
      v.currentPage = w.currentPage) ∧
    (∀ (k : Nat) (suspended : InFlight), w.inFlight[k]? = some suspended →
      step w (.arrive k (.error error)) =
        { w with
          inFlight := w.inFlight.eraseIdx k
          console := w.console ++ ["Search error: " ++ error] }) := by
  constructor
  · have hs : search service w =
        .ok { w with
              searchCalls := w.searchCalls + 1
              requests := w.requests ++ [buildSearchParameters w.searchBox w.sourceFilter
                (resolvePerPage w.resultsPerPage) w.currentPage]
              console := w.console ++ ["Search error: " ++ error] } := by
      simp only [search, searchBegin_nonempty w h, hfail, searchResume_error]
    exact ⟨_, hs, rfl, rfl, rfl, rfl, rfl⟩
  · intro k suspended hk
    simp [step, hk, searchResume_error]

/-- C10 on a page: on page 1 of 3 for "tgv" a failing service leaves the result cards, the
pagination control and the page number in place and adds one console entry. -/
theorem failed_request_witness :
    ∃ v, search (fun _ => .error "503") threePages = .ok v ∧
      v.console = ["Search error: 503"] ∧
      v.results = .cards [{ document := "p1", highlights := [] }] ∧
      v.pagination = .nav (.fin 3) true false ∧ v.currentPage = 1 ∧ v.requests.length = 2 := by
  obtain ⟨v, h1, h2, h3, h4, h5, h6⟩ :=
    (failed_request_is_only_logged (fun _ => .error "503") threePages (by decide!) "503" rfl).1
  refine ⟨v, h1, ?_, ?_, ?_, ?_, ?_⟩
  · rw [h2]; decide!
  · rw [h4]; decide!
  · rw [h5]; decide!
  · rw [h6]; decide!
  · rw [h3, List.length_append]; decide!

end TgvPrototype
